import Mathlib

/-!
Verification of the trajectory aggregation and convergence-clustering engine
of PMI_analysis (`pyext/src/analysis_trajectories.py`).

Conventions of the embedding:
* directory names and column names are modelled as `List Char` (the character
  string); `np.sort` on a string array is modelled by an ascending
  lexicographic insertion sort, which is the order Python uses on strings;
* floating-point score values are modelled as rationals (`ℚ`);
* a pandas data frame is modelled as a list of named columns;
* fallible external collaborators (the equilibration detector) are modelled
  as `Option`-returning functions.
-/

/-- A trajectory directory name, modelled as its character string. -/
abbrev DirName := List Char

/-- The half label attached to a trajectory's score table by
`AnalysisTrajectories.read_traj_info` (lines 622-628): the Python code
assigns the string `'A'`, the string `'B'`, or the integer `0` (unset). -/
inductive Half : Type
  | A : Half
  | B : Half
  | unset : Half
  deriving DecidableEq

/-- `np.sort` on an array of directory-name strings:
ascending lexicographic sort. -/
def npSort (l : List DirName) : List DirName :=
  List.insertionSort (fun a b => a ≤ b) l

/-- Stride-two slice `xs[::2]` of a Python/numpy sequence. -/
def sliceStride2 {α : Type} : List α → List α
  | [] => []
  | [a] => [a]
  | a :: _ :: rest => a :: sliceStride2 rest

/-- `self.dir_halfA = np.sort(self.out_dirs)[::2]` (`__init__`, line 99). -/
def dir_halfA (out_dirs : List DirName) : List DirName :=
  sliceStride2 (npSort out_dirs)

/-- `self.dir_halfB = np.sort(self.out_dirs)[1::2]` (`__init__`, line 100). -/
def dir_halfB (out_dirs : List DirName) : List DirName :=
  sliceStride2 ((npSort out_dirs).drop 1)

/-- The half label given to the trajectory read from directory `out` by
`read_traj_info` (lines 622-628): `'A'` if `out` is in `dir_halfA`,
`'B'` if it is in `dir_halfB`, and the fallback value `0` otherwise. -/
def half_assign (out_dirs : List DirName) (out : DirName) : Half :=
  if out ∈ dir_halfA out_dirs then Half.A
  else if out ∈ dir_halfB out_dirs then Half.B
  else Half.unset

theorem sliceStride2_cons_cons {α : Type} (a b : α) (rest : List α) :
    sliceStride2 (a :: b :: rest) = a :: sliceStride2 rest := rfl

theorem sliceStride2_cons_drop {α : Type} (b : α) (rest : List α) :
    sliceStride2 (b :: rest) = b :: sliceStride2 (rest.drop 1) := by
  cases rest <;> rfl

theorem sliceStride2_getElem? {α : Type} (l : List α) (k : Nat) :
    (sliceStride2 l)[k]? = l[2 * k]? := by
  induction l using sliceStride2.induct generalizing k with
  | case1 => simp [sliceStride2]
  | case2 a =>
    match k with
    | 0 => rfl
    | k + 1 =>
      rw [List.getElem?_eq_none
          (by simp only [sliceStride2, List.length_singleton]; omega),
        List.getElem?_eq_none (by simp only [List.length_singleton]; omega)]
  | case3 a b rest ih =>
    match k with
    | 0 => simp [sliceStride2_cons_cons]
    | k + 1 =>
      have h2 : 2 * (k + 1) = 2 * k + 1 + 1 := by ring
      rw [sliceStride2_cons_cons, h2, List.getElem?_cons_succ,
        List.getElem?_cons_succ, List.getElem?_cons_succ]
      exact ih k

theorem sliceStride2_append_perm {α : Type} (l : List α) :
    (sliceStride2 l ++ sliceStride2 (l.drop 1)).Perm l := by
  induction l using sliceStride2.induct with
  | case1 => simp [sliceStride2]
  | case2 a => simp [sliceStride2]
  | case3 a b rest ih =>
    rw [sliceStride2_cons_cons, List.drop_one, List.tail_cons,
      sliceStride2_cons_drop]
    have h1 : (sliceStride2 rest ++ b :: sliceStride2 (rest.drop 1)).Perm
        (b :: (sliceStride2 rest ++ sliceStride2 (rest.drop 1))) :=
      List.perm_middle
    exact (h1.trans (ih.cons b)).cons a

theorem npSort_perm (l : List DirName) : (npSort l).Perm l :=
  List.perm_insertionSort _ l

theorem npSort_sorted (l : List DirName) :
    List.Sorted (fun a b : DirName => a ≤ b) (npSort l) :=
  List.sorted_insertionSort _ l

theorem npSort_eq_of_perm {l₁ l₂ : List DirName} (h : l₁.Perm l₂) :
    npSort l₁ = npSort l₂ :=
  List.eq_of_perm_of_sorted
    ((npSort_perm l₁).trans (h.trans (npSort_perm l₂).symm))
    (npSort_sorted l₁) (npSort_sorted l₂)

/-- The two halves together are a permutation of the input directory list. -/
theorem halves_perm (l : List DirName) :
    (dir_halfA l ++ dir_halfB l).Perm l :=
  (sliceStride2_append_perm (npSort l)).trans (npSort_perm l)

/-- C1: the half assignment is computed deterministically by sorting the
directories and assigning by parity of sort rank: the `k`-th entry of half A
is the directory of even sort rank `2k`, the `k`-th entry of half B is the
directory of odd sort rank `2k+1`; any two runs over the same directory set
(any two permutations of the same list) produce the identical assignment;
and for 4 directories sorted as `[d0,d1,d2,d3]`, half A is `[d0,d2]` and
half B is `[d1,d3]`. -/
theorem claim_C1 :
    (∀ l₁ l₂ : List DirName, l₁.Perm l₂ →
      dir_halfA l₁ = dir_halfA l₂ ∧ dir_halfB l₁ = dir_halfB l₂) ∧
    (∀ (l : List DirName) (k : Nat),
      (dir_halfA l)[k]? = (npSort l)[2 * k]? ∧
      (dir_halfB l)[k]? = (npSort l)[2 * k + 1]?) ∧
    (dir_halfA ["d2".toList, "d0".toList, "d3".toList, "d1".toList] =
        ["d0".toList, "d2".toList] ∧
      dir_halfB ["d2".toList, "d0".toList, "d3".toList, "d1".toList] =
        ["d1".toList, "d3".toList]) := by
  refine ⟨?_, ?_, ?_⟩
  · intro l₁ l₂ h
    have hs : npSort l₁ = npSort l₂ := npSort_eq_of_perm h
    exact ⟨by rw [dir_halfA, dir_halfA, hs], by rw [dir_halfB, dir_halfB, hs]⟩
  · intro l k
    constructor
    · exact sliceStride2_getElem? (npSort l) k
    · rw [dir_halfB, sliceStride2_getElem?, List.getElem?_drop, Nat.add_comm]
  · exact ⟨by decide, by decide⟩

/-- Witness for C1 at a concrete input: the two-element directory lists
`["b","a"]` and `["a","b"]` are permutations of one another, and they give
the identical half assignment. -/
theorem claim_C1_witness :
    dir_halfA ["b".toList, "a".toList] = dir_halfA ["a".toList, "b".toList] ∧
    dir_halfB ["b".toList, "a".toList] = dir_halfB ["a".toList, "b".toList] :=
  claim_C1.1 ["b".toList, "a".toList] ["a".toList, "b".toList] (by decide)

/-- C10: the two halves partition the input directory multiset, and every
directory drawn from the input list is assigned the half label `'A'` or
`'B'`; the fallback branch assigning the `unset` label (`0`) is unreachable
for directories of the input list. -/
theorem claim_C10 :
    (∀ out_dirs : List DirName, (dir_halfA out_dirs ++ dir_halfB out_dirs).Perm out_dirs) ∧
    (∀ (out_dirs : List DirName) (out : DirName), out ∈ out_dirs →
      half_assign out_dirs out = Half.A ∨ half_assign out_dirs out = Half.B) := by
  refine ⟨halves_perm, ?_⟩
  intro dirs out hmem
  have h : out ∈ dir_halfA dirs ++ dir_halfB dirs :=
    (halves_perm dirs).mem_iff.mpr hmem
  by_cases hA : out ∈ dir_halfA dirs
  · left
    simp [half_assign, hA]
  · right
    have hB : out ∈ dir_halfB dirs := by
      rcases List.mem_append.mp h with h1 | h2
      · exact absurd h1 hA
      · exact h2
    simp [half_assign, hA, hB]

/-- Witness for C10 at a concrete input: the directory `"a"` drawn from the
input list `["b","a"]` receives the label `A` or `B`. -/
theorem claim_C10_witness :
    half_assign ["b".toList, "a".toList] "a".toList = Half.A ∨
    half_assign ["b".toList, "a".toList] "a".toList = Half.B :=
  claim_C10.2 ["b".toList, "a".toList] "a".toList (by decide)

/-- One data row of a score-log shard, as accumulated in `S_scores` by
`read_stats_detailed`: the Monte-Carlo frame counter (`MC_frame`, the first
entry of the row, sorted as a float) together with the rest of the row,
abstracted into one rational payload. -/
abbrev SRow := ℚ × ℚ

/-- One physical line of a log shard as seen by `read_stats_detailed`:
`some r` when `eval(line)` succeeds and the row projects to `r`, `none` when
the line fails to parse. -/
abbrev LogLine := Option SRow

/-- The per-shard line loop of `read_stats_detailed` (lines 385-404).
`k` is the number of lines already consumed, so the current line has
`line_number = k + 1`.  A line that fails to parse stops the shard
(`break`); a parsed line contributes a row only when `line_number > 1`
(the very first line is the header). -/
def readLines : Nat → List LogLine → List SRow
  | _, [] => []
  | _, none :: _ => []
  | k, some r :: rest =>
    if k + 1 > 1 then r :: readLines (k + 1) rest else readLines (k + 1) rest

/-- Reading one stat-file shard (`line_number = 0` before the loop). -/
def readShard (lines : List LogLine) : List SRow := readLines 0 lines

/-- Accumulation of `S_scores` over all shards of one trajectory, in shard
order (the outer `for file in stat_files` loop). -/
def read_shards (shards : List (List LogLine)) : List SRow :=
  (shards.map readShard).flatten

/-- `S_scores.sort(key=lambda x: float(x[0]))` followed by data-frame
construction (lines 406-411): the accumulated rows sorted ascending by the
frame counter.  Python's `list.sort` is a stable ascending sort, modelled by
a stable insertion sort on the frame key. -/
def read_stats_detailed (shards : List (List LogLine)) : List SRow :=
  List.insertionSort (fun x y : SRow => x.1 ≤ y.1) (read_shards shards)

/-- The `MC_frame` column of the resulting score table. -/
def frameColumn (rows : List SRow) : List ℚ := rows.map (fun r => r.1)

instance : IsTotal SRow (fun x y : SRow => x.1 ≤ y.1) :=
  ⟨fun a b => le_total a.1 b.1⟩

instance : IsTrans SRow (fun x y : SRow => x.1 ≤ y.1) :=
  ⟨fun _ _ _ h1 h2 => le_trans h1 h2⟩

instance : IsAntisymm SRow (fun x y : SRow => x.1 < y.1) :=
  ⟨fun _ _ h1 h2 => (lt_asymm h1 h2).elim⟩

theorem readLines_append_none (pre : List LogLine) :
    ∀ (k : Nat) (suf : List LogLine), (∀ x ∈ pre, x ≠ none) →
      readLines k (pre ++ none :: suf) = readLines k pre := by
  induction pre with
  | nil => intro k suf _; rfl
  | cons x pre ih =>
    intro k suf hx
    match x, hx with
    | none, hx => exact absurd rfl (hx none (List.mem_cons_self none pre))
    | some r, hx =>
      have hpre : ∀ y ∈ pre, y ≠ none := fun y hy =>
        hx y (List.mem_cons_of_mem _ hy)
      simp only [List.cons_append, readLines, List.append_eq]
      rw [ih (k + 1) suf hpre]

theorem flatten_perm_of_perm {α : Type} {l₁ l₂ : List (List α)}
    (h : l₁.Perm l₂) : l₁.flatten.Perm l₂.flatten := by
  induction h with
  | nil => exact List.Perm.refl _
  | cons x _ ih => simpa using ih.append_left x
  | swap x y l =>
    simp only [List.flatten_cons, ← List.append_assoc]
    exact (List.perm_append_comm).append_right _
  | trans _ _ ih1 ih2 => exact ih1.trans ih2

/-- C9: (a) the first line of every shard is treated as the header and never
contributes a data row — the shard's rows do not depend on the header's
value; (b) when a line of a shard fails to parse, reading of that shard
stops at that line: the rows are exactly those of the parseable prefix;
(c) shards contribute independently, so the remaining shards of the
trajectory are still read in full. -/
theorem claim_C9 :
    (∀ (h h' : SRow) (rest : List LogLine),
      readShard (some h :: rest) = readShard (some h' :: rest)) ∧
    (∀ (pre suf : List LogLine), (∀ x ∈ pre, x ≠ none) →
      readShard (pre ++ none :: suf) = readShard pre) ∧
    (∀ (shards₁ shards₂ : List (List LogLine)) (s : List LogLine),
      read_shards (shards₁ ++ s :: shards₂) =
        read_shards shards₁ ++ readShard s ++ read_shards shards₂) := by
  refine ⟨?_, ?_, ?_⟩
  · intro h h' rest
    simp [readShard, readLines]
  · intro pre suf hpre
    exact readLines_append_none pre 0 suf hpre
  · intro shards₁ shards₂ s
    simp [read_shards, List.map_append, List.flatten_append, List.append_assoc]

/-- Witness for C9 at concrete inputs: two different headers give the same
rows; a shard with a corrupt second line yields only its parseable prefix's
rows; a corrupt shard leaves the surrounding shards' rows unchanged. -/
theorem claim_C9_witness :
    readShard (some ((0 : ℚ), (0 : ℚ)) :: [some (2, 2)]) =
      readShard (some ((1 : ℚ), (1 : ℚ)) :: [some (2, 2)]) ∧
    readShard ([some ((0 : ℚ), (0 : ℚ))] ++ none :: [some (1, 1)]) =
      readShard [some ((0 : ℚ), (0 : ℚ))] ∧
    read_shards ([[some ((3 : ℚ), (3 : ℚ))]] ++
        [some ((0 : ℚ), (0 : ℚ)), none] :: [[some ((4 : ℚ), (4 : ℚ))]]) =
      read_shards [[some ((3 : ℚ), (3 : ℚ))]] ++
        readShard [some ((0 : ℚ), (0 : ℚ)), none] ++
        read_shards [[some ((4 : ℚ), (4 : ℚ))]] :=
  ⟨claim_C9.1 (0, 0) (1, 1) [some (2, 2)],
    claim_C9.2.1 [some (0, 0)] [some (1, 1)] (by simp),
    claim_C9.2.2 [[some (3, 3)]] [[some (4, 4)]] [some (0, 0), none]⟩

/-- C3 counterexample: two shards whose data rows carry the same frame
counter 0.  After accumulation and sorting the frame-index column is
`[0, 0]`, which is not strictly ascending, so the claim as stated (strict
ascent for every trajectory) fails. -/
theorem claim_C3_counterexample :
    ¬ List.Pairwise (fun a b : ℚ => a < b)
      (frameColumn (read_stats_detailed
        [[some (5, 1), some ((0 : ℚ), (1 : ℚ))],
         [some (7, 2), some ((0 : ℚ), (2 : ℚ))]])) := by
  norm_num [read_stats_detailed, read_shards, readShard, readLines,
    frameColumn, List.insertionSort, List.orderedInsert]

/-- C3 (amended): for every trajectory and every ordering of its log shards,
the rows accumulated from all shards are globally sorted ascending (i.e.
non-decreasing) by the frame counter before the score table is constructed,
the table being a permutation of the accumulated rows; when the parsed frame
counters are pairwise distinct, the frame-index column is strictly
ascending, and the resulting table is identical regardless of input shard
order. -/
theorem claim_C3 :
    (∀ shards : List (List LogLine),
      List.Pairwise (fun a b : ℚ => a ≤ b)
        (frameColumn (read_stats_detailed shards)) ∧
      (read_stats_detailed shards).Perm (read_shards shards)) ∧
    (∀ shards : List (List LogLine),
      (frameColumn (read_shards shards)).Nodup →
      List.Pairwise (fun a b : ℚ => a < b)
        (frameColumn (read_stats_detailed shards))) ∧
    (∀ shards₁ shards₂ : List (List LogLine), shards₁.Perm shards₂ →
      (frameColumn (read_shards shards₁)).Nodup →
      read_stats_detailed shards₁ = read_stats_detailed shards₂) := by
  have hsorted : ∀ shards : List (List LogLine),
      List.Pairwise (fun a b : ℚ => a ≤ b)
        (frameColumn (read_stats_detailed shards)) := by
    intro shards
    have h := List.sorted_insertionSort (fun x y : SRow => x.1 ≤ y.1)
      (read_shards shards)
    exact List.pairwise_map.mpr h
  have hperm : ∀ shards : List (List LogLine),
      (read_stats_detailed shards).Perm (read_shards shards) :=
    fun shards => List.perm_insertionSort _ _
  have hstrict : ∀ shards : List (List LogLine),
      (frameColumn (read_shards shards)).Nodup →
      List.Pairwise (fun a b : ℚ => a < b)
        (frameColumn (read_stats_detailed shards)) := by
    intro shards hnd
    have hnd2 : (frameColumn (read_stats_detailed shards)).Nodup :=
      (((hperm shards).map (fun r : SRow => r.1)).nodup_iff).mpr hnd
    exact ((hsorted shards).and hnd2).imp
      (fun h => lt_of_le_of_ne h.1 h.2)
  refine ⟨fun shards => ⟨hsorted shards, hperm shards⟩, hstrict, ?_⟩
  intro shards₁ shards₂ hp hnd
  have hrows : (read_shards shards₁).Perm (read_shards shards₂) :=
    flatten_perm_of_perm (hp.map readShard)
  have h1 : (read_stats_detailed shards₁).Perm (read_stats_detailed shards₂) :=
    ((hperm shards₁).trans hrows).trans (hperm shards₂).symm
  have hs1 : List.Pairwise (fun x y : SRow => x.1 < y.1)
      (read_stats_detailed shards₁) :=
    List.pairwise_map.mp (hstrict shards₁ hnd)
  have hnd2 : (frameColumn (read_shards shards₂)).Nodup := by
    have := (hrows.map (fun r : SRow => r.1)).nodup_iff
    exact this.mp hnd
  have hs2 : List.Pairwise (fun x y : SRow => x.1 < y.1)
      (read_stats_detailed shards₂) :=
    List.pairwise_map.mp (hstrict shards₂ hnd2)
  exact List.eq_of_perm_of_sorted (r := fun x y : SRow => x.1 < y.1) h1 hs1 hs2

/-- Witness for C3 at a concrete input: one trajectory with two shards whose
data rows carry the distinct frame counters 1 and 0; the sorted table is a
sorted permutation with strictly ascending frame column, and the two shard
orders give the identical table. -/
theorem claim_C3_witness :
    (List.Pairwise (fun a b : ℚ => a ≤ b)
      (frameColumn (read_stats_detailed
        [[some (5, 1), some ((1 : ℚ), (1 : ℚ))],
         [some (7, 2), some ((0 : ℚ), (2 : ℚ))]])) ∧
      (read_stats_detailed
        [[some (5, 1), some ((1 : ℚ), (1 : ℚ))],
         [some (7, 2), some ((0 : ℚ), (2 : ℚ))]]).Perm
        (read_shards
          [[some (5, 1), some ((1 : ℚ), (1 : ℚ))],
           [some (7, 2), some ((0 : ℚ), (2 : ℚ))]])) ∧
    List.Pairwise (fun a b : ℚ => a < b)
      (frameColumn (read_stats_detailed
        [[some (5, 1), some ((1 : ℚ), (1 : ℚ))],
         [some (7, 2), some ((0 : ℚ), (2 : ℚ))]])) ∧
    read_stats_detailed
        [[some (5, 1), some ((1 : ℚ), (1 : ℚ))],
         [some (7, 2), some ((0 : ℚ), (2 : ℚ))]] =
      read_stats_detailed
        [[some (7, 2), some ((0 : ℚ), (2 : ℚ))],
         [some (5, 1), some ((1 : ℚ), (1 : ℚ))]] :=
  ⟨claim_C3.1 _,
    claim_C3.2.1 _ (by
      norm_num [read_shards, readShard, readLines, frameColumn]),
    claim_C3.2.2 _ _ (by
      exact List.Perm.swap _ _ _) (by
      norm_num [read_shards, readShard, readLines, frameColumn])⟩

/-- `self.th = 50` (`__init__`, line 46): the fixed warm-up prefix length
discarded before any per-column statistic is computed. -/
def th : Nat := 50

/-- The equilibration contribution of one score/nuisance column (the loop
body of `read_traj_info`, lines 586-591): the external detector
`detectEquilibration` — modelled at its interface as an `Option`-returning
function — is called on `S_tot_scores[r].loc[self.th:]` (the column minus
its first 50 rows); on failure the `except` branch appends 0. -/
def colCutoff (det : List ℚ → Option Nat) (col : List ℚ) : Nat :=
  match det (col.drop th) with
  | some t => t
  | none => 0

/-- The `ts_eq` list accumulated over the selected columns
(lines 585-592). -/
def ts_eq_list (det : List ℚ → Option Nat) (cols : List (List ℚ)) : List Nat :=
  cols.map (colCutoff det)

/-- `np.max` on a (nonempty) list of naturals. -/
def npMaxNat (l : List Nat) : Nat := l.foldl max 0

/-- `ts_max = np.max(ts_eq) + self.th` (line 593): the per-trajectory
equilibration cutoff. -/
def ts_max (det : List ℚ → Option Nat) (cols : List (List ℚ)) : Nat :=
  npMaxNat (ts_eq_list det cols) + th

theorem foldl_max_add (c : Nat) :
    ∀ (l : List Nat) (a : Nat),
      l.foldl max a + c = (l.map (fun x => x + c)).foldl max (a + c) := by
  intro l
  induction l with
  | nil => intro a; rfl
  | cons x xs ih =>
    intro a
    simp only [List.foldl_cons, List.map_cons]
    rw [ih, Nat.add_max_add_right]

/-- C4: the per-trajectory equilibration cutoff equals the maximum, over all
evaluated columns, of the detector's equilibration index on the column after
the 50-frame warm-up prefix is discarded, plus the 50-frame warm-up offset;
and a column on which the detector fails contributes cutoff 0 instead of
aborting the trajectory. -/
theorem claim_C4 (det : List ℚ → Option Nat) (col : List ℚ)
    (cols : List (List ℚ)) (hne : cols ≠ [])
    (hfail : det (col.drop 50) = none) :
    ts_max det cols = npMaxNat (cols.map (fun c => colCutoff det c + th)) ∧
    colCutoff det col = 0 := by
  constructor
  · obtain ⟨x, xs, rfl⟩ := List.exists_cons_of_ne_nil hne
    simp only [ts_max, npMaxNat, ts_eq_list, List.map_cons, List.foldl_cons,
      Nat.zero_max]
    rw [foldl_max_add, List.map_map]
    rfl
  · simp only [colCutoff, th]
    rw [hfail]

/-- Witness for C4 at a concrete input: an always-failing detector on the
single-column list `[[]]` gives cutoff `0 + 50` and contribution 0. -/
theorem claim_C4_witness :
    ts_max (fun _ => none) [[]] =
      npMaxNat ([[]].map (fun c => colCutoff (fun _ => none) c + th)) ∧
    colCutoff (fun _ => none) [] = 0 :=
  claim_C4 (fun _ => none) [] [[]] (by simp) rfl

/-- Minimum of one frame's distance values over one ambiguity group
(`XLs_dists[v].min(axis=1)` for one row, `get_XLs_satisfaction`,
lines 1126-1130); pandas only ever takes it over a nonempty group,
so the empty-list value 0 is never used. -/
def listMin : List ℚ → ℚ
  | [] => 0
  | a :: rest => rest.foldl min a

/-- One frame's satisfaction fraction without ambiguity
(`get_XLs_satisfaction`, line 1134): `sum(x <= cutoff) / len(x)` over the
frame's selected distance columns `x`. -/
def get_XLs_satisfaction (cutoff : ℚ) (dists : List ℚ) : ℚ :=
  (dists.countP (fun d => decide (d ≤ cutoff)) : ℚ) / (dists.length : ℚ)

/-- One frame's satisfaction fraction with ambiguity
(`get_XLs_satisfaction`, lines 1123-1131): each ambiguity group is first
collapsed to its minimum distance for the frame
(`min_XLs[k] = XLs_dists[v].min(axis=1)`), then the satisfaction fraction is
computed over the collapsed columns. -/
def get_XLs_satisfaction_ambig (cutoff : ℚ) (groups : List (List ℚ)) : ℚ :=
  get_XLs_satisfaction cutoff (groups.map listMin)

/-- C5: the per-frame satisfaction fraction lies in [0,1]; with ambiguity,
each group is collapsed to its minimum, so the fraction depends only on the
per-group minima, and a group counts as satisfied exactly when its minimum
distance is ≤ the cutoff. -/
theorem claim_C5 (cutoff : ℚ) (dists : List ℚ)
    (groups groups' : List (List ℚ)) (hne : dists ≠ [])
    (hmin : groups.map listMin = groups'.map listMin) :
    0 ≤ get_XLs_satisfaction cutoff dists ∧
    get_XLs_satisfaction cutoff dists ≤ 1 ∧
    get_XLs_satisfaction_ambig cutoff groups =
      get_XLs_satisfaction_ambig cutoff groups' ∧
    get_XLs_satisfaction_ambig cutoff groups =
      (groups.countP (fun g => decide (listMin g ≤ cutoff)) : ℚ) /
        (groups.length : ℚ) := by
  have hlen : (0 : ℚ) < (dists.length : ℚ) := by
    exact_mod_cast List.length_pos.mpr hne
  refine ⟨?_, ?_, ?_, ?_⟩
  · exact div_nonneg (by positivity) (by positivity)
  · rw [get_XLs_satisfaction, div_le_one hlen]
    exact_mod_cast List.countP_le_length _
  · rw [get_XLs_satisfaction_ambig, get_XLs_satisfaction_ambig, hmin]
  · rw [get_XLs_satisfaction_ambig, get_XLs_satisfaction, List.countP_map,
      List.length_map]
    rfl

/-- Witness for C5 at a concrete input: cutoff 30, one frame with distance
columns `[10, 40]` and one ambiguity group `[3, 7]`. -/
theorem claim_C5_witness :
    0 ≤ get_XLs_satisfaction 30 [10, 40] ∧
    get_XLs_satisfaction 30 [10, 40] ≤ 1 ∧
    get_XLs_satisfaction_ambig 30 [[3, 7]] =
      get_XLs_satisfaction_ambig 30 [[3, 7]] ∧
    get_XLs_satisfaction_ambig 30 [[3, 7]] =
      (List.countP (fun g => decide (listMin g ≤ 30)) [[3, 7]] : ℚ) /
        ((List.length [[(3 : ℚ), 7]]) : ℚ) :=
  claim_C5 30 [10, 40] [[3, 7]] [[3, 7]] (by simp) rfl

/-- One row of the combined score table `S_comb` with the fields the
clustering selection and export read: the trajectory half label and the
cluster label attached by HDBSCAN (−1 = noise). -/
structure MRow where
  half : Half
  cluster : Int
  deriving DecidableEq

/-- `set(S_comb['cluster'])`: the distinct cluster labels, noise (−1)
included.  `write_summary_hdbscan_clustering` (lines 739-757) writes one
summary row for each of these. -/
def clusterLabels (S : List MRow) : List Int :=
  (S.map (fun r => r.cluster)).dedup

/-- Model count of cluster `cl` in half `h`:
`len(HH_cluster[HH_cluster['half']==h])` for `HH_cluster` the rows with
cluster label `cl` (`write_hdbscan_clustering`, lines 775-779). -/
def n_half (S : List MRow) (cl : Int) (h : Half) : Nat :=
  (S.filter (fun r => decide (r.cluster = cl) && decide (r.half = h))).length

/-- The clusters for which `write_hdbscan_clustering` (lines 763-823)
writes selected-model outputs: the non-noise labels
(`clusters = [cl for cl in clusters if cl >= 0]`, line 771) whose two
halves both hold at least 10 models (line 779). -/
def exportedClusters (S : List MRow) : List Int :=
  ((clusterLabels S).filter (fun cl => decide (0 ≤ cl))).filter
    (fun cl => decide (10 ≤ n_half S cl Half.A) &&
      decide (10 ≤ n_half S cl Half.B))

/-- C6: a cluster appears in the selection/export outputs iff its label is
≥ 0 (not noise) and it has at least 10 models in each half; a cluster with
9 models in half A and 15 in half B is excluded, one with 10 and 10 is
included; noise (label −1) is never exported but still appears among the
summarised cluster labels. -/
theorem claim_C6 :
    (∀ (S : List MRow) (cl : Int),
      cl ∈ exportedClusters S ↔
        cl ∈ clusterLabels S ∧ 0 ≤ cl ∧
          10 ≤ n_half S cl Half.A ∧ 10 ≤ n_half S cl Half.B) ∧
    (∀ S : List MRow, (-1 : Int) ∉ exportedClusters S) ∧
    ((0 : Int) ∉ exportedClusters
        (List.replicate 9 (MRow.mk Half.A 0) ++
          List.replicate 15 (MRow.mk Half.B 0)) ∧
      (0 : Int) ∈ exportedClusters
        (List.replicate 10 (MRow.mk Half.A 0) ++
          List.replicate 10 (MRow.mk Half.B 0)) ∧
      (-1 : Int) ∈ clusterLabels [MRow.mk Half.A (-1)]) := by
  have hmem : ∀ (S : List MRow) (cl : Int),
      cl ∈ exportedClusters S ↔
        cl ∈ clusterLabels S ∧ 0 ≤ cl ∧
          10 ≤ n_half S cl Half.A ∧ 10 ≤ n_half S cl Half.B := by
    intro S cl
    simp only [exportedClusters, List.mem_filter, Bool.and_eq_true,
      decide_eq_true_eq, and_assoc]
  refine ⟨hmem, ?_, by decide, by decide, by decide⟩
  intro S h
  have h2 := ((hmem S (-1)).mp h).2.1
  omega

/-- Witness for C6 at a concrete input: a table holding only one noise row
exports nothing for label −1. -/
theorem claim_C6_witness : (-1 : Int) ∉ exportedClusters [MRow.mk Half.A (-1)] :=
  claim_C6.2.1 [MRow.mk Half.A (-1)]

/-- The random-subsample selection of `write_hdbscan_clustering`
(lines 809-817): the cluster is written in full when both the converged
sample count `n` and the cluster size are below 30000; otherwise
`HH_cluster.sample(n=29999)` draws a random 29999-row subset of the
combined cluster.  The random draw — which pandas guarantees to be a
subsequence of the cluster of exactly the requested length — is an explicit
input of the embedding. -/
def hh_sel (conv_n : Nat) (cluster draw : List MRow) : List MRow :=
  if conv_n < 30000 ∧ cluster.length < 30000 then cluster else draw

/-- The per-half rows of a selection (`HH_sel[HH_sel['half']=='A']` and
`HH_sel[HH_sel['half']=='B']`, lines 812-817). -/
def half_rows (S : List MRow) (h : Half) : List MRow :=
  S.filter (fun r => decide (r.half = h))

theorem filter_replicate_mrow (p : MRow → Bool) (n : Nat) (a : MRow) :
    (List.replicate n a).filter p = if p a then List.replicate n a else [] := by
  induction n with
  | zero => simp
  | succ n ih =>
    simp only [List.replicate_succ, List.filter_cons, ih]
    cases hpa : p a <;> simp [hpa]

theorem half_rows_length_add :
    ∀ S : List MRow, (∀ r ∈ S, r.half = Half.A ∨ r.half = Half.B) →
      (half_rows S Half.A).length + (half_rows S Half.B).length = S.length := by
  intro S
  induction S with
  | nil => intro _; rfl
  | cons r S ih =>
    intro hS
    have hr := hS r (List.mem_cons_self r S)
    have ih2 := ih (fun x hx => hS x (List.mem_cons_of_mem r hx))
    simp only [half_rows] at ih2 ⊢
    rcases hr with hA | hB
    · simp only [List.filter_cons, hA]
      rw [if_pos (by simp), if_neg (by simp)]
      simp only [List.length_cons]
      omega
    · simp only [List.filter_cons, hB]
      rw [if_neg (by simp), if_pos (by simp)]
      simp only [List.length_cons]
      omega

/-- The concrete 40000-row qualifying cluster of the C7 scenario:
20000 models in half A and 20000 in half B, all in cluster 5. -/
def cluster40000 : List MRow :=
  List.replicate 20000 (MRow.mk Half.A 5) ++
    List.replicate 20000 (MRow.mk Half.B 5)

/-- One possible value of the 29999-row random draw
`HH_cluster.sample(n=29999)` on `cluster40000`: its first 29999 rows. -/
def draw29999 : List MRow := cluster40000.take 29999

theorem cluster40000_length : cluster40000.length = 40000 := by
  rw [cluster40000, List.length_append, List.length_replicate,
    List.length_replicate]

theorem draw29999_eq :
    draw29999 = List.replicate 20000 (MRow.mk Half.A 5) ++
      List.replicate 9999 (MRow.mk Half.B 5) := by
  rw [draw29999, cluster40000, List.take_append_eq_append_take,
    List.length_replicate, List.take_replicate, List.take_replicate]
  norm_num [Nat.min_def]

theorem draw29999_length : draw29999.length = 29999 := by
  rw [draw29999_eq, List.length_append, List.length_replicate,
    List.length_replicate]

theorem draw29999_sublist : draw29999.Sublist cluster40000 :=
  List.take_sublist 29999 cluster40000

theorem cluster40000_halves :
    ∀ r ∈ cluster40000, r.half = Half.A ∨ r.half = Half.B := by
  intro r hr
  rw [cluster40000] at hr
  rcases List.mem_append.mp hr with h | h
  · left
    rw [List.eq_of_mem_replicate h]
  · right
    rw [List.eq_of_mem_replicate h]

/-- C7 counterexample: the claim says a qualifying cluster with 40000
combined rows is sampled down to exactly 29999 rows **per half**.  At the
concrete 40000-row cluster and the concrete admissible 29999-row draw, the
two written halves hold 20000 and 9999 rows — not 29999 each. -/
theorem claim_C7_counterexample :
    ¬ ((half_rows (hh_sel 100 cluster40000 draw29999) Half.A).length = 29999 ∧
      (half_rows (hh_sel 100 cluster40000 draw29999) Half.B).length = 29999) := by
  have hsel : hh_sel 100 cluster40000 draw29999 = draw29999 := by
    rw [hh_sel, if_neg]
    rw [cluster40000_length]
    omega
  have hApart : half_rows draw29999 Half.A =
      List.replicate 20000 (MRow.mk Half.A 5) := by
    rw [draw29999_eq, half_rows, List.filter_append, filter_replicate_mrow,
      filter_replicate_mrow, if_pos (by decide), if_neg (by decide),
      List.append_nil]
  intro hcl
  have hA := hcl.1
  rw [hsel, hApart, List.length_replicate] at hA
  exact absurd hA (by decide)

/-- C7 (amended): the random-subsample export is capped at 29999 **combined**
rows per cluster: for a qualifying cluster of 40000 rows (each row labelled
half A or half B) the written halves together hold exactly 29999 rows — the
random draw split by half — while a cluster with 20000 rows (and converged
sample count below 30000) is written in full. -/
theorem claim_C7 :
    (∀ (conv_n : Nat) (cluster draw : List MRow),
      (∀ r ∈ cluster, r.half = Half.A ∨ r.half = Half.B) →
      draw.Sublist cluster → draw.length = 29999 → cluster.length = 40000 →
      (half_rows (hh_sel conv_n cluster draw) Half.A).length +
        (half_rows (hh_sel conv_n cluster draw) Half.B).length = 29999) ∧
    (∀ (conv_n : Nat) (cluster draw : List MRow),
      conv_n < 30000 → cluster.length = 20000 →
      hh_sel conv_n cluster draw = cluster) := by
  constructor
  · intro conv_n cluster draw hAB hsub hdlen hclen
    have hsel : hh_sel conv_n cluster draw = draw := by
      rw [hh_sel, if_neg]
      rw [hclen]
      omega
    rw [hsel]
    have hdAB : ∀ r ∈ draw, r.half = Half.A ∨ r.half = Half.B := fun r hr =>
      hAB r (hsub.mem hr)
    rw [half_rows_length_add draw hdAB, hdlen]
  · intro conv_n cluster draw h1 h2
    rw [hh_sel, if_pos]
    constructor
    · exact h1
    · omega

/-- Witness for C7 at the concrete scenario inputs: the 40000-row cluster
with the concrete draw exports 29999 combined rows, and a 20000-row
cluster is written in full. -/
theorem claim_C7_witness :
    (half_rows (hh_sel 100 cluster40000 draw29999) Half.A).length +
      (half_rows (hh_sel 100 cluster40000 draw29999) Half.B).length = 29999 ∧
    hh_sel 100 (List.replicate 20000 (MRow.mk Half.A 5)) [] =
      List.replicate 20000 (MRow.mk Half.A 5) :=
  ⟨claim_C7.1 100 cluster40000 draw29999 cluster40000_halves
      draw29999_sublist draw29999_length cluster40000_length,
    claim_C7.2 100 (List.replicate 20000 (MRow.mk Half.A 5)) []
      (by omega) (List.length_replicate 20000 (MRow.mk Half.A 5))⟩

/-- One row of the `RH1`/`RH2` convergence arrays built by
`plot_scores_distributions` (lines 958-970): subsample size `m`
(column 0), mean of the 20 minimum-score draws (column 1), and their
standard deviation (column 2). -/
structure RHRow where
  m : ℚ
  mean : ℚ
  std : ℚ

/-- The convergence loop of `plot_scores_distributions` (lines 972-981),
embedded exactly as written in the source: per step `s`,
`dA = RH1[s,1]-RH1[s+1,1]`, `dB = RH2[s,1]-RH2[s+1,1]`; `hits` is
incremented when `dA < RH1[s+1,2] and dB < RH2[s+1,1]` (note: the half-B
comparison reads column 1, the next step's **mean**); `hits` is never
reset; and `n` is (re)assigned `RH1[s+1,0]` on every iteration in which
`hits == 4` (the trailing `continue` is a no-op).  Returns `n`
(initially 0). -/
def convergence_n (RH1 RH2 : List RHRow) : ℚ :=
  (((RH1.zip RH2).zip ((RH1.zip RH2).drop 1)).foldl
    (fun (st : Nat × ℚ) p =>
      let dA := p.1.1.mean - p.2.1.mean
      let dB := p.1.2.mean - p.2.2.mean
      let hits := if dA < p.2.1.std ∧ dB < p.2.2.mean then st.1 + 1 else st.1
      (hits, if hits = 4 then p.2.1.m else st.2))
    (0, 0)).2

/-- Modelled from the spec: the convergence rule as the specification
states it — scanning the subsample sizes in increasing order, the converged
sample count is the smallest size reached once the successive change in
mean minimum score is smaller than the **next step's standard deviation in
both halves independently** for four consecutive increasing steps
(`none` when no such size exists). -/
def convergence_n_spec (RH1 RH2 : List RHRow) : Option ℚ :=
  (((RH1.zip RH2).zip ((RH1.zip RH2).drop 1)).foldl
    (fun (st : Nat × Option ℚ) p =>
      let dA := p.1.1.mean - p.2.1.mean
      let dB := p.1.2.mean - p.2.2.mean
      let streak := if dA < p.2.1.std ∧ dB < p.2.2.std then st.1 + 1 else 0
      (streak, if st.2 = none ∧ streak = 4 then some p.2.1.m else st.2))
    (0, none)).2

/-- The failing input for C2: five subsample sizes 10..50; half A has
constant mean 0 with standard deviation 5, half B has constant mean −10
with standard deviation 5.  Every step satisfies the specification's
condition (0 < 5 in both halves), so the spec rule converges at size 50;
the code compares half B's change against the next mean (−10), never counts
a hit, and returns 0. -/
def rh1C2 : List RHRow :=
  [⟨10, 0, 5⟩, ⟨20, 0, 5⟩, ⟨30, 0, 5⟩, ⟨40, 0, 5⟩, ⟨50, 0, 5⟩]

/-- Half-B convergence array of the C2 failing input. -/
def rh2C2 : List RHRow :=
  [⟨10, -10, 5⟩, ⟨20, -10, 5⟩, ⟨30, -10, 5⟩, ⟨40, -10, 5⟩, ⟨50, -10, 5⟩]

/-- C2: at the concrete convergence arrays `rh1C2`/`rh2C2` the code's loop
returns 0 (no converged sample count) although the claimed rule — change in
mean below the next step's standard deviation in both halves for four
consecutive steps — is satisfied from the first step on and yields 50: the
code compares half B's change against the next step's mean instead of its
standard deviation, counts hits cumulatively without reset, and keeps
reassigning `n` while `hits == 4`. -/
theorem claim_C2 :
    convergence_n rh1C2 rh2C2 = 0 ∧
    convergence_n_spec rh1C2 rh2C2 = some 50 := by
  constructor
  · norm_num [convergence_n, rh1C2, rh2C2, List.zip, List.zipWith]
  · norm_num [convergence_n_spec, rh1C2, rh2C2, List.zip, List.zipWith]

/-- A named column of the score table: column name (a character string) and
its values, one per row. -/
abbrev DFCol := List Char × List ℚ

/-- A pandas data frame, modelled as its list of named columns (all of the
same length). -/
abbrev DFrame := List DFCol

/-- Python's substring test `key_id in v` on column names. -/
def strContains (v key_id : List Char) : Bool := decide (key_id <:+: v)

/-- Number of rows of a data frame (pandas: the common column length). -/
def nRows (DF : DFrame) : Nat :=
  match DF with
  | [] => 0
  | c :: _ => c.2.length

/-- `DF_t.sum(axis=1)`: elementwise sum across the given columns, zero for
every row when no column is selected. -/
def sumAxis1 (n : Nat) (cols : List (List ℚ)) : List ℚ :=
  cols.foldl (fun acc c => acc.zipWith (fun a b => a + b) c)
    (List.replicate n 0)

/-- `AnalysisTrajectories.add_restraint_type` (lines 474-478): select the
data-frame columns whose name contains the substring `key_id` and sum them
per row. -/
def add_restraint_type (DF : DFrame) (key_id : List Char) : List ℚ :=
  sumAxis1 (nRows DF)
    ((DF.filter (fun c => strContains c.1 key_id)).map (fun c => c.2))

/-- The restraint/summation switches read by the summation blocks of
`read_stats_detailed` embedded here (lines 422-424 and 438-444).  The
source reads no MembraneSurfaceLocation flag in this block: lines 442-444
test the MembraneExclusion flags again. -/
structure SumFlags where
  ev : Bool
  sum_ev : Bool
  mex : Bool
  sum_mex : Bool

/-- The `EV`, `MEX` and `MSL` summation steps of `read_stats_detailed`
(lines 422-424 and 438-444): `DF.assign(EV_sum=...)` appends a column named
`EV_sum` holding `add_restraint_type(DF, 'EV_')`, and likewise for
`MEX_sum`; the `MSL_sum` step is guarded by
`self.MembraneExclusion_restraint and self.sum_MembraneExclusion_restraint`
exactly as in the source (line 442). -/
def apply_sum_blocks (fl : SumFlags) (DF : DFrame) : DFrame :=
  let DF1 := if fl.ev && fl.sum_ev
    then DF ++ [("EV_sum".toList, add_restraint_type DF "EV_".toList)]
    else DF
  let DF2 := if fl.mex && fl.sum_mex
    then DF1 ++ [("MEX_sum".toList, add_restraint_type DF1 "MEX_".toList)]
    else DF1
  if fl.mex && fl.sum_mex
    then DF2 ++ [("MSL_sum".toList, add_restraint_type DF2 "MSL_".toList)]
    else DF2

/-- The C8 failing input: a score table carrying two
MembraneSurfaceLocation component columns (as produced by `get_fields` for
a log with two matching fields), with the MembraneSurfaceLocation restraint
enabled and its summation configured but the MembraneExclusion restraint
disabled. -/
def DF_msl : DFrame :=
  [("MC_frame".toList, [0, 1]),
   ("MSL_1".toList, [1, 2]),
   ("MSL_2".toList, [3, 4])]

theorem zipWith_replicate_zero (v : List ℚ) :
    ∀ n : Nat, v.length = n →
      List.zipWith (fun a b : ℚ => a + b) (List.replicate n 0) v = v := by
  induction v with
  | nil =>
    intro n h
    rw [← h]
    rfl
  | cons a v ih =>
    intro n h
    rw [← h]
    simp only [List.length_cons, List.replicate_succ, List.zipWith_cons_cons,
      zero_add, ih v.length rfl]

/-- C8: when the score table's columns containing `EV_` are exactly the two
excluded-volume component columns, summation enabled appends one `EV_sum`
column equal to their elementwise sum, while summation disabled leaves the
table unchanged and no `EV_sum` column exists; but the analogous guarantee
fails for MembraneSurfaceLocation: with the MSL restraint summed and the
MembraneExclusion restraint disabled, the table `DF_msl` gains no `MSL_sum`
column, because the `MSL_sum` block is guarded by the MembraneExclusion
flags. -/
theorem claim_C8 (DF : DFrame) (n1 n2 : List Char) (v1 v2 : List ℚ)
    (hfilter : DF.filter (fun c => strContains c.1 "EV_".toList) =
      [(n1, v1), (n2, v2)])
    (h1 : v1.length = nRows DF) (h2 : v2.length = nRows DF)
    (hn1 : n1 ≠ "EV_sum".toList) (hn2 : n2 ≠ "EV_sum".toList) :
    apply_sum_blocks (SumFlags.mk true true false false) DF =
      DF ++ [("EV_sum".toList,
        List.zipWith (fun a b : ℚ => a + b) v1 v2)] ∧
    apply_sum_blocks (SumFlags.mk true false false false) DF = DF ∧
    "EV_sum".toList ∉
      (apply_sum_blocks (SumFlags.mk true false false false) DF).map
        Prod.fst ∧
    "MSL_sum".toList ∉
      (apply_sum_blocks (SumFlags.mk false true false true) DF_msl).map
        Prod.fst := by
  have hnoEV : apply_sum_blocks (SumFlags.mk true false false false) DF = DF := by
    simp [apply_sum_blocks]
  refine ⟨?_, hnoEV, ?_, by decide⟩
  · have hsum : add_restraint_type DF "EV_".toList =
        List.zipWith (fun a b : ℚ => a + b) v1 v2 := by
      rw [add_restraint_type, hfilter]
      simp only [List.map_cons, List.map_nil, sumAxis1, List.foldl_cons,
        List.foldl_nil]
      rw [zipWith_replicate_zero v1 (nRows DF) h1]
    simp only [apply_sum_blocks, Bool.and_self, Bool.and_false,
      Bool.false_eq_true, if_false, if_true]
    rw [hsum]
  · rw [hnoEV]
    intro hmem
    rcases List.mem_map.mp hmem with ⟨c, hc, hcname⟩
    have hcontains : strContains c.1 "EV_".toList = true := by
      rw [hcname]
      decide
    have hcf : c ∈ DF.filter (fun c => strContains c.1 "EV_".toList) :=
      List.mem_filter.mpr ⟨hc, hcontains⟩
    rw [hfilter] at hcf
    rcases List.mem_pair.mp hcf with h | h
    · exact hn1 (by rw [← hcname, h])
    · exact hn2 (by rw [← hcname, h])

/-- Witness for C8 at a concrete input: a table with frame column `[0,1]`
and the two excluded-volume components `EV_1 = [1,2]`, `EV_2 = [3,4]`. -/
theorem claim_C8_witness :
    apply_sum_blocks (SumFlags.mk true true false false)
        [("MC_frame".toList, [0, 1]), ("EV_1".toList, [1, 2]),
          ("EV_2".toList, [3, 4])] =
      [("MC_frame".toList, [0, 1]), ("EV_1".toList, [1, 2]),
        ("EV_2".toList, [3, 4])] ++
        [("EV_sum".toList,
          List.zipWith (fun a b : ℚ => a + b) [1, 2] [3, 4])] ∧
    apply_sum_blocks (SumFlags.mk true false false false)
        [("MC_frame".toList, [0, 1]), ("EV_1".toList, [1, 2]),
          ("EV_2".toList, [3, 4])] =
      [("MC_frame".toList, [0, 1]), ("EV_1".toList, [1, 2]),
        ("EV_2".toList, [3, 4])] ∧
    "EV_sum".toList ∉
      (apply_sum_blocks (SumFlags.mk true false false false)
        [("MC_frame".toList, [0, 1]), ("EV_1".toList, [1, 2]),
          ("EV_2".toList, [3, 4])]).map Prod.fst ∧
    "MSL_sum".toList ∉
      (apply_sum_blocks (SumFlags.mk false true false true) DF_msl).map
        Prod.fst :=
  claim_C8 [("MC_frame".toList, [0, 1]), ("EV_1".toList, [1, 2]),
      ("EV_2".toList, [3, 4])] "EV_1".toList "EV_2".toList [1, 2] [3, 4]
    rfl rfl rfl (by decide) (by decide)
